import Mathlib

/-
Verification development for the Connect-Ai repository: a shallow embedding
of its streaming conversation engine (submitPrompt / streamResponse), its
session store (handleNewChat / handleDeleteChat / handleMoveChatToFolder),
the live-chat transcript coalescing (addOrUpdateTranscription) and the
audio playback scheduler of LiveChatView, together with theorems settling
the specified properties.
-/

namespace ConnectAi

/-! Data model, from src/types.ts. -/

/-- Embeds the MessageRole enum of src/types.ts. -/
inductive MessageRole where
  | user
  | model
  | system
  | tool
deriving DecidableEq

/-- Embeds GroundingSource as produced by submitPrompt (src/unnamed/part_000
lines 289-294): the mapped uri and title can each be absent, mirroring the
optional chaining in the source. -/
structure GroundingSrc where
  uri : Option String
  title : Option String
deriving DecidableEq

/-- Embeds the ChatMessage interface of src/types.ts. -/
structure ChatMessage where
  id : String
  role : MessageRole
  content : String
  imageUrls : Option (List String) := none
  groundingSources : Option (List GroundingSrc) := none
deriving DecidableEq

/-- Embeds the TranscriptionMessage interface of src/types.ts. -/
structure TranscriptionMessage where
  id : String
  role : MessageRole
  text : String
  isFinal : Bool
deriving DecidableEq

/-- Embeds the web field of a grounding chunk returned by the API, as read
by submitPrompt via chunk.web?.uri and chunk.web?.title. -/
structure WebInfo where
  uri : Option String
  title : Option String
deriving DecidableEq

/-- One element of candidates[0].groundingMetadata.groundingChunks. -/
structure GroundingChunk where
  web : Option WebInfo
deriving DecidableEq

/-- Embeds one streamed GenerateContentResponse as consumed by submitPrompt:
only its text (chunk.text; an absent text behaves as the empty string, since
the source guards every use with a truthiness check) and its grounding
chunks (absent when candidates[0].groundingMetadata.groundingChunks is
undefined) are read. -/
structure Chunk where
  text : String
  groundingChunks : Option (List GroundingChunk)
deriving DecidableEq

/-! Message reducer, from src/unnamed/part_000 (App.tsx). -/

/-- The update pattern used by every message patch in submitPrompt:
chat.messages.map(m => m.id === mid ? f(m) : m). -/
def updateById (msgs : List ChatMessage) (mid : String)
    (f : ChatMessage → ChatMessage) : List ChatMessage :=
  msgs.map fun m => if m.id == mid then f m else m

/-- The set-content patch of submitPrompt (part_000 lines 280-283 and
306-309): replace the matching message's content. -/
def setContentById (msgs : List ChatMessage) (mid content : String) :
    List ChatMessage :=
  updateById msgs mid fun m => { m with content := content }

/-- The set-sources patch of submitPrompt (part_000 lines 296-299): replace
the matching message's groundingSources. -/
def setSourcesById (msgs : List ChatMessage) (mid : String)
    (sources : List GroundingSrc) : List ChatMessage :=
  updateById msgs mid fun m => { m with groundingSources := some sources }

/-- The three message-list patch kinds named by the spec's Message Reducer:
set-content and set-sources are the two map updates of submitPrompt; the
append-content-delta patch is the spec's name for the per-chunk update,
which the source realizes as set-content of the accumulated text. -/
inductive MsgPatch where
  | setContent (content : String)
  | appendDelta (delta : String)
  | setSources (sources : List GroundingSrc)

/-- Applies one patch to one message. -/
def applyMsgPatch : MsgPatch → ChatMessage → ChatMessage
  | .setContent c, m => { m with content := c }
  | .appendDelta d, m => { m with content := m.content ++ d }
  | .setSources s, m => { m with groundingSources := some s }

/-- One message-list patch, targeted by message id, following the map
pattern of updateActiveChat / submitPrompt (part_000 lines 227-233 and
280-299). -/
def patchMessageList (msgs : List ChatMessage) (mid : String)
    (p : MsgPatch) : List ChatMessage :=
  updateById msgs mid (applyMsgPatch p)

/-- Looks a message up by id, as Array.prototype.find would. -/
def getMessageById (msgs : List ChatMessage) (mid : String) :
    Option ChatMessage :=
  msgs.find? fun m => m.id == mid

/-- The content of the message with the given id, when present. -/
def getContentById (msgs : List ChatMessage) (mid : String) :
    Option String :=
  (getMessageById msgs mid).map ChatMessage.content

/-! Generation controller, from submitPrompt (part_000 lines 258-315) and
streamResponse (src/services/geminiService.ts lines 71-116). -/

/-- The empty placeholder model message appended at generation start
(part_000 line 266). -/
def placeholderMessage (mid : String) : ChatMessage :=
  { id := mid, role := MessageRole.model, content := ""
    imageUrls := none, groundingSources := some [] }

/-- The chunk-consumption loop of submitPrompt (part_000 lines 275-285):
the state is the message list paired with the accumulated fullResponse;
a chunk with truthy text extends fullResponse and set-content patches the
placeholder, an empty chunk leaves the state unchanged. -/
def consumeChunks (mid : String) (st : List ChatMessage × String) :
    List Chunk → List ChatMessage × String
  | [] => st
  | c :: cs =>
    if c.text ≠ "" then
      consumeChunks mid
        (setContentById st.1 mid (st.2 ++ c.text), st.2 ++ c.text) cs
    else
      consumeChunks mid st cs

/-- JavaScript truthiness of an optional string: undefined and the empty
string are falsy. -/
def jsTruthy : Option String → Bool
  | none => false
  | some s => s != ""

/-- The grounding-source extraction of submitPrompt (part_000 lines
288-294): map each grounding chunk to its web uri and title, keep those
with a truthy uri. -/
def sourcesOfGroundingChunks (gcs : List GroundingChunk) :
    List GroundingSrc :=
  (gcs.map fun gc =>
    { uri := gc.web.bind WebInfo.uri, title := gc.web.bind WebInfo.title }).filter
    fun s => jsTruthy s.uri

/-- The post-loop grounding step of submitPrompt (part_000 lines 287-300):
if the final response packet (the last consumed chunk) carries grounding
chunks, attach the extracted sources to the placeholder message. -/
def applyGrounding (mid : String) (finalPacket : Option Chunk)
    (msgs : List ChatMessage) : List ChatMessage :=
  match finalPacket with
  | none => msgs
  | some c =>
    match c.groundingChunks with
    | none => msgs
    | some gcs => setSourcesById msgs mid (sourcesOfGroundingChunks gcs)

/-- A run of submitPrompt in which the stream ends without throwing (this
includes the cancellation break inside wrappedStream, which ends the
for-await loop normally): append the placeholder, consume the delivered
chunks, then apply the grounding step using the last delivered packet. -/
def submitPromptComplete (history : List ChatMessage) (mid : String)
    (delivered : List Chunk) : List ChatMessage :=
  let msgs0 := history ++ [placeholderMessage mid]
  let st := consumeChunks mid (msgs0, "") delivered
  applyGrounding mid delivered.getLast? st.1

/-- The formatted error block submitPrompt writes into the placeholder on a
non-abort failure (part_000 line 305). -/
def errorBlock (errMessage : String) : String :=
  "**Error:** I seem to be having trouble connecting. Please check your connection and API key, then try again.\n\n> "
    ++ errMessage

/-- A run of submitPrompt in which the stream throws a non-abort error
after delivering some chunks (part_000 lines 302-310): the catch replaces
the placeholder's content with the formatted error block; the grounding
step is skipped. -/
def submitPromptError (history : List ChatMessage) (mid : String)
    (delivered : List Chunk) (errMessage : String) : List ChatMessage :=
  let msgs0 := history ++ [placeholderMessage mid]
  let st := consumeChunks mid (msgs0, "") delivered
  setContentById st.1 mid (errorBlock errMessage)

/-- A run of submitPrompt in which an AbortError is thrown after delivering
some chunks (part_000 line 303): the catch recognizes the abort and leaves
the accumulated state untouched. -/
def submitPromptAborted (history : List ChatMessage) (mid : String)
    (delivered : List Chunk) : List ChatMessage :=
  (consumeChunks mid (history ++ [placeholderMessage mid], "") delivered).1

/-- The wrappedStream generator of streamResponse (geminiService.ts lines
95-103): before yielding each chunk it checks the abort signal, observed
as a function of how many chunks have already been yielded, and breaks
once the signal reads aborted. -/
def wrappedStreamRun (aborted : Nat → Bool) :
    List Chunk → Nat → List Chunk
  | [], _ => []
  | c :: cs, n =>
    if aborted n then [] else c :: wrappedStreamRun aborted cs (n + 1)

/-- The chunks delivered when the cancellation signal reads aborted exactly
once n chunks have been consumed. -/
def deliveredOnCancel (chunks : List Chunk) (n : Nat) : List Chunk :=
  wrappedStreamRun (fun k => decide (n ≤ k)) chunks 0

/-- streamResponse (geminiService.ts lines 71-116): if the signal is
already aborted it returns an empty generator without calling
chat.sendMessageStream; otherwise it sends the request (first component
true), and a send failure surfaces as the rethrown formatted error. The
returned chunk list is what the wrapped generator yields. -/
def streamResponse (abortedAtStart : Bool) (sendFails : Option String)
    (chunks : List Chunk) (aborted : Nat → Bool) :
    Except String (Bool × List Chunk) :=
  if abortedAtStart then
    Except.ok (false, [])
  else
    match sendFails with
    | some _ =>
      Except.error "Failed to get response from AI. Please check your API key and network connection."
    | none => Except.ok (true, wrappedStreamRun aborted chunks 0)

/-- Left-fold concatenation of a list of strings, the shape in which the
chunk loop accumulates fullResponse. -/
def concatFrom (acc : String) : List String → String
  | [] => acc
  | t :: ts => concatFrom (acc ++ t) ts

/-- Concatenation of a list of strings in order. -/
def concatTexts (ts : List String) : String :=
  concatFrom "" ts

/-! Session store, from src/types.ts and src/unnamed/part_000. -/

/-- Embeds the HarmCategory enum of src/types.ts. -/
inductive HarmCategoryT where
  | harassment
  | hateSpeech
  | sexuallyExplicit
  | dangerousContent
deriving DecidableEq

/-- Embeds the HarmBlockThreshold enum of src/types.ts. -/
inductive HarmBlockThresholdT where
  | blockNone
  | blockOnlyHigh
  | blockMediumAndAbove
  | blockLowAndAbove
  | unspecified
deriving DecidableEq

/-- Embeds the SafetySetting interface of src/types.ts. -/
structure SafetySetting where
  category : HarmCategoryT
  threshold : HarmBlockThresholdT
deriving DecidableEq

/-- The defaultSafetySettings constant of part_000 lines 30-35. -/
def defaultSafetySettings : List SafetySetting :=
  [ { category := .harassment, threshold := .blockMediumAndAbove }
  , { category := .hateSpeech, threshold := .blockMediumAndAbove }
  , { category := .sexuallyExplicit, threshold := .blockMediumAndAbove }
  , { category := .dangerousContent, threshold := .blockMediumAndAbove } ]

/-- The defaultSystemPrompt constant of part_000 line 28. -/
def defaultSystemPrompt : String :=
  "You are a helpful and friendly AI assistant named Connect Ai. Your goal is to provide accurate and concise information. Format your responses using Markdown for better readability, including code blocks for code snippets. If you are asked \"who made you?\", \"who created you?\", or any similar question about your origin, you must say that you were created by a Moroccan developer named Othman&leo, an African technology team. You must provide their contact email: othmanalif10@gmail.com. You cannot create images, videos, or audio. If a user asks you to generate any media, you must politely inform them that you are a text-based AI and do not have this capability. You must not say that you were created by Google or that you are based on Gemini."

/-- Embeds the ChatSession interface of src/types.ts; optional numeric
parameters are carried with their concrete runtime values (rationals for
the floating-point sampling parameters). -/
structure ChatSession where
  id : String
  title : String
  messages : List ChatMessage
  systemPrompt : String
  temperature : ℚ
  topK : ℕ
  topP : ℚ
  safetySettings : List SafetySetting
  maxOutputTokens : ℕ
  stopSequences : List String
  useGoogleSearch : Bool
  pinned : Bool
  model : String
deriving DecidableEq

/-- Embeds the Folder interface of src/types.ts. -/
structure Folder where
  id : String
  name : String
  chatIds : List String
  isOpen : Bool
deriving DecidableEq

/-- The fresh default session created by handleNewChat (part_000 lines
238-252); the id is Date.now().toString(), passed here as a parameter. -/
def mkNewChat (newId : String) : ChatSession :=
  { id := newId
    title := "New Conversation"
    messages := []
    systemPrompt := defaultSystemPrompt
    temperature := 7/10
    topK := 40
    topP := 95/100
    safetySettings := defaultSafetySettings
    maxOutputTokens := 2048
    stopSequences := []
    useGoogleSearch := false
    pinned := false
    model := "gemini-2.5-flash" }

/-- The store state held by App: the session list, the folder list and the
active session id (null when none). -/
structure StoreState where
  sessions : List ChatSession
  folders : List Folder
  activeChatId : Option String
deriving DecidableEq

/-- handleNewChat (part_000 lines 237-256): prepend the fresh default
session and make it active. -/
def handleNewChat (newId : String) (s : StoreState) : StoreState :=
  { s with
    sessions := mkNewChat newId :: s.sessions
    activeChatId := some newId }

/-- handleDeleteChat (part_000 lines 399-415), confirmed path: drop the
session, scrub its id from every folder, then, if it was active, select
the first remaining session, or create a fresh default session (with id
newId) when none remain. -/
def handleDeleteChat (chatId newId : String) (s : StoreState) :
    StoreState :=
  let remaining := s.sessions.filter fun c => c.id != chatId
  let folders' := s.folders.map fun f =>
    { f with chatIds := f.chatIds.filter fun i => i != chatId }
  if s.activeChatId = some chatId then
    match remaining with
    | [] =>
      handleNewChat newId
        { sessions := [], folders := folders', activeChatId := none }
    | first :: rest =>
      { sessions := first :: rest, folders := folders'
        activeChatId := some first.id }
  else
    { sessions := remaining, folders := folders'
      activeChatId := s.activeChatId }

/-- Selecting a session from the sidebar (onSelectChat = setActiveChatId,
part_000 line 670). -/
def handleSelectChat (chatId : String) (s : StoreState) : StoreState :=
  { s with activeChatId := some chatId }

/-- handleRenameChat (part_000 lines 390-397), non-blank path. -/
def handleRenameChat (chatId newTitle : String) (s : StoreState) :
    StoreState :=
  { s with
    sessions := s.sessions.map fun c =>
      if c.id == chatId then { c with title := newTitle } else c }

/-- handleTogglePinChat (part_000 lines 476-478). -/
def handleTogglePinChat (chatId : String) (s : StoreState) : StoreState :=
  { s with
    sessions := s.sessions.map fun c =>
      if c.id == chatId then { c with pinned := !c.pinned } else c }

/-- The session-store operations that touch the session list or the active
selection. -/
inductive StoreOp where
  | newChat (newId : String)
  | deleteChat (chatId newId : String)
  | selectChat (chatId : String)
  | renameChat (chatId newTitle : String)
  | togglePin (chatId : String)

/-- Applies one store operation. -/
def applyOp : StoreOp → StoreState → StoreState
  | .newChat newId, s => handleNewChat newId s
  | .deleteChat chatId newId, s => handleDeleteChat chatId newId s
  | .selectChat chatId, s => handleSelectChat chatId s
  | .renameChat chatId t, s => handleRenameChat chatId t s
  | .togglePin chatId, s => handleTogglePinChat chatId s

/-- A selection is only ever issued for a session shown in the sidebar,
that is, for an existing id; the other operations are unconstrained. -/
def ValidOp (s : StoreState) : StoreOp → Prop
  | .selectChat chatId => chatId ∈ s.sessions.map ChatSession.id
  | _ => True

/-- The store invariant of the spec: the active id, when set, names an
existing session, and a non-empty store always has an active selection. -/
def StoreInv (s : StoreState) : Prop :=
  (∀ a, s.activeChatId = some a → a ∈ s.sessions.map ChatSession.id) ∧
    (s.sessions ≠ [] → s.activeChatId ≠ none)

/-! Folder operations, from handleMoveChatToFolder (part_000 lines
499-514). -/

/-- handleMoveChatToFolder: first remove the chat id from every folder's
member list, then, when a target folder is given, prepend it to that
folder's member list. -/
def handleMoveChatToFolder (chatId : String) (folderId : Option String)
    (folders : List Folder) : List Folder :=
  let updatedFolders := folders.map fun f =>
    { f with chatIds := f.chatIds.filter fun i => i != chatId }
  match folderId with
  | some fid =>
    updatedFolders.map fun f =>
      if f.id == fid then { f with chatIds := chatId :: f.chatIds } else f
  | none => updatedFolders

/-- A sequence of move-to-folder operations, applied in order. -/
def applyMoves (moves : List (String × Option String))
    (folders : List Folder) : List Folder :=
  moves.foldl (fun fs mv => handleMoveChatToFolder mv.1 mv.2 fs) folders

/-- How many folders list the given chat id among their members. -/
def foldersContaining (chatId : String) (folders : List Folder) : ℕ :=
  folders.countP fun f => decide (chatId ∈ f.chatIds)

/-- The folder invariant of the spec: every session id appears in at most
one folder's member list. -/
def FolderInv (folders : List Folder) : Prop :=
  ∀ chatId : String, foldersContaining chatId folders ≤ 1

/-! Live-chat transcript coalescing, from addOrUpdateTranscription
(src/components/LiveChatView.tsx lines 111-128) and the turnComplete
handler (lines 276-278). -/

/-- Truthiness of text.trim() in the source: the trimmed string is
non-empty exactly when the text holds at least one non-whitespace
character. -/
def trimmedNonempty (text : String) : Bool :=
  text.data.any fun c => !c.isWhitespace

/-- addOrUpdateTranscription: tool entries are always appended finalized;
otherwise, if the last entry has the same role and is not final, the new
text is merged into it; otherwise a new entry is appended when the trimmed
text is non-blank. Fresh entry ids come from Date.now().toString(), passed
here as a parameter. -/
def addOrUpdateTranscription (freshId : String) (role : MessageRole)
    (text : String) (isFinal : Bool) (prev : List TranscriptionMessage) :
    List TranscriptionMessage :=
  if role = MessageRole.tool then
    prev ++ [{ id := freshId, role := role, text := text, isFinal := true }]
  else
    match prev.getLast? with
    | some last =>
      if last.role = role ∧ last.isFinal = false then
        prev.dropLast ++
          [{ last with text := last.text ++ text, isFinal := isFinal }]
      else if trimmedNonempty text then
        prev ++ [{ id := freshId, role := role, text := text, isFinal := isFinal }]
      else
        prev
    | none =>
      if trimmedNonempty text then
        prev ++ [{ id := freshId, role := role, text := text, isFinal := isFinal }]
      else
        prev

/-- The turnComplete handler (LiveChatView.tsx lines 276-278): every
non-final entry is marked final, final entries are kept as they are. -/
def finalizeAll (ts : List TranscriptionMessage) :
    List TranscriptionMessage :=
  ts.map fun t => if t.isFinal = false then { t with isFinal := true } else t

/-! Audio playback scheduling, from the onmessage handler of LiveChatView
(lines 279-295). Times and durations are rationals standing for seconds on
the output audio clock. -/

/-- The playback state: the running next-start-time cursor and the set of
scheduled sources, each recorded as its start time and duration. -/
structure PlaybackState where
  nextStartTime : ℚ
  sources : List (ℚ × ℚ)
deriving DecidableEq

/-- Scheduling one incoming audio chunk (LiveChatView.tsx lines 279-290):
the cursor is first raised to the current clock time if it lags, the
source starts at the resulting cursor value, and the cursor advances by
the chunk's duration. Returns the new state and the scheduled start. -/
def scheduleChunk (st : PlaybackState) (now dur : ℚ) :
    PlaybackState × ℚ :=
  let start := max st.nextStartTime now
  ({ nextStartTime := start + dur, sources := (start, dur) :: st.sources },
    start)

/-- The interrupted handler (LiveChatView.tsx lines 291-295): stop every
scheduled source, clear the set, and reset the cursor to zero. -/
def interruptPlayback (_st : PlaybackState) : PlaybackState :=
  { nextStartTime := 0, sources := [] }

/-! Helper lemmas about the message-patch pattern. -/

theorem updateById_length (msgs : List ChatMessage) (mid : String)
    (f : ChatMessage → ChatMessage) :
    (updateById msgs mid f).length = msgs.length := by
  simp [updateById]

theorem updateById_getElem? (msgs : List ChatMessage) (mid : String)
    (f : ChatMessage → ChatMessage) (i : ℕ) :
    (updateById msgs mid f)[i]? =
      (msgs[i]?).map fun m => if m.id == mid then f m else m := by
  simp [updateById]

theorem updateById_of_not_mem (msgs : List ChatMessage) (mid : String)
    (f : ChatMessage → ChatMessage)
    (h : mid ∉ msgs.map ChatMessage.id) : updateById msgs mid f = msgs := by
  unfold updateById
  have hm : ∀ m ∈ msgs, (if m.id == mid then f m else m) = m := by
    intro m hmem
    have hne : ¬(m.id == mid) = true := by
      simp only [beq_iff_eq]
      intro he
      exact h (List.mem_map.mpr ⟨m, hmem, he⟩)
    simp [hne]
  calc msgs.map (fun m => if m.id == mid then f m else m)
      = msgs.map id := List.map_congr_left hm
    _ = msgs := List.map_id msgs

theorem getMessageById_updateById (msgs : List ChatMessage) (mid : String)
    (f : ChatMessage → ChatMessage) (hf : ∀ m, (f m).id = m.id) :
    getMessageById (updateById msgs mid f) mid =
      (getMessageById msgs mid).map f := by
  unfold getMessageById updateById
  rw [List.find?_map]
  have hp : ((fun m : ChatMessage => m.id == mid) ∘
      fun m => if m.id == mid then f m else m) =
        fun m : ChatMessage => m.id == mid := by
    funext m
    by_cases h : (m.id == mid) = true
    · simp [Function.comp, h, hf]
    · simp [Function.comp, h]
  rw [hp]
  cases hfind : msgs.find? (fun m => m.id == mid) with
  | none => rfl
  | some a =>
    have ha := List.find?_some hfind
    simp only [Option.map_some']
    rw [if_pos ha]

theorem getContentById_setContentById (msgs : List ChatMessage)
    (mid x : String) :
    getContentById (setContentById msgs mid x) mid =
      (getContentById msgs mid).map fun _ => x := by
  unfold getContentById setContentById
  rw [getMessageById_updateById msgs mid
    (fun m => { m with content := x }) (fun m => rfl)]
  cases getMessageById msgs mid <;> rfl

theorem getContentById_setSourcesById (msgs : List ChatMessage)
    (mid : String) (srcs : List GroundingSrc) :
    getContentById (setSourcesById msgs mid srcs) mid =
      getContentById msgs mid := by
  unfold getContentById setSourcesById
  rw [getMessageById_updateById msgs mid
    (fun m => { m with groundingSources := some srcs }) (fun m => rfl)]
  cases getMessageById msgs mid <;> rfl

theorem getContentById_applyGrounding (mid : String) (p : Option Chunk)
    (msgs : List ChatMessage) :
    getContentById (applyGrounding mid p msgs) mid =
      getContentById msgs mid := by
  cases p with
  | none => rfl
  | some c =>
    cases hgc : c.groundingChunks with
    | none => simp [applyGrounding, hgc]
    | some gcs => simp [applyGrounding, hgc, getContentById_setSourcesById]

theorem contents_applyGrounding (mid : String) (p : Option Chunk)
    (msgs : List ChatMessage) :
    (applyGrounding mid p msgs).map ChatMessage.content =
      msgs.map ChatMessage.content := by
  cases p with
  | none => rfl
  | some c =>
    cases hgc : c.groundingChunks with
    | none => simp [applyGrounding, hgc]
    | some gcs =>
      simp only [applyGrounding, hgc]
      unfold setSourcesById updateById
      rw [List.map_map]
      refine List.map_congr_left fun m _ => ?_
      by_cases h : (m.id == mid) = true <;> simp [Function.comp, h]

theorem consumeChunks_content (mid : String) (cs : List Chunk) :
    ∀ (msgs : List ChatMessage) (full : String),
      getContentById msgs mid = some full →
      getContentById (consumeChunks mid (msgs, full) cs).1 mid =
        some (consumeChunks mid (msgs, full) cs).2 := by
  induction cs with
  | nil => intro msgs full h; simpa [consumeChunks] using h
  | cons c cs ih =>
    intro msgs full h
    by_cases hc : c.text ≠ ""
    · simp only [consumeChunks, if_pos hc]
      exact ih _ _ (by rw [getContentById_setContentById, h]; rfl)
    · simp only [consumeChunks, if_neg hc]
      exact ih _ _ h

theorem consumeChunks_snd (mid : String) (cs : List Chunk) :
    ∀ (msgs : List ChatMessage) (full : String),
      (consumeChunks mid (msgs, full) cs).2 =
        concatFrom full (cs.map Chunk.text) := by
  induction cs with
  | nil => intro msgs full; rfl
  | cons c cs ih =>
    intro msgs full
    by_cases hc : c.text ≠ ""
    · simp only [consumeChunks, if_pos hc, List.map_cons, concatFrom]
      exact ih _ _
    · push_neg at hc
      have hcc : ¬(c.text ≠ "") := by simp [hc]
      simp only [consumeChunks, if_neg hcc, List.map_cons,
        concatFrom, hc, String.append_empty]
      exact ih _ _

theorem concatFrom_filter_ne_empty (ts : List String) :
    ∀ acc, concatFrom acc (ts.filter fun t => t != "") =
      concatFrom acc ts := by
  induction ts with
  | nil => intro acc; rfl
  | cons t ts ih =>
    intro acc
    by_cases ht : t = ""
    · subst ht
      simpa [concatFrom, String.append_empty] using ih acc
    · rw [List.filter_cons_of_pos (by simpa using ht)]
      simpa [concatFrom] using ih (acc ++ t)

theorem getContentById_append_placeholder (history : List ChatMessage)
    (mid : String) (h : ∀ m ∈ history, m.id ≠ mid) :
    getContentById (history ++ [placeholderMessage mid]) mid = some "" := by
  unfold getContentById getMessageById
  rw [List.find?_append]
  have h1 : history.find? (fun m => m.id == mid) = none := by
    rw [List.find?_eq_none]
    intro m hm
    simpa using h m hm
  rw [h1]
  simp [placeholderMessage]

theorem wrappedStreamRun_nat_le (n : ℕ) (cs : List Chunk) :
    ∀ k, wrappedStreamRun (fun j => decide (n ≤ j)) cs k =
      cs.take (n - k) := by
  induction cs with
  | nil => intro k; simp [wrappedStreamRun]
  | cons c cs ih =>
    intro k
    by_cases hk : n ≤ k
    · simp [wrappedStreamRun, hk, Nat.sub_eq_zero_of_le hk]
    · have hlt : k < n := Nat.lt_of_not_le hk
      have hsub : n - k = (n - (k + 1)) + 1 := by omega
      simp only [wrappedStreamRun, decide_eq_true_eq, if_neg hk, ih (k + 1),
        hsub, List.take_succ_cons]

theorem deliveredOnCancel_eq_take (chunks : List Chunk) (n : ℕ) :
    deliveredOnCancel chunks n = chunks.take n := by
  simpa using wrappedStreamRun_nat_le n chunks 0

/-- C1: for every sequence of chunks delivered during one generation to the
placeholder message with the given fresh id, after the stream completes the
message's content is exactly the concatenation of the non-empty chunk texts
in delivery order. -/
theorem streamed_content_is_chunk_concat (history : List ChatMessage)
    (mid : String) (chunks : List Chunk)
    (hfresh : ∀ m ∈ history, m.id ≠ mid) :
    getContentById (submitPromptComplete history mid chunks) mid =
      some (concatTexts ((chunks.map Chunk.text).filter fun t => t != "")) := by
  unfold submitPromptComplete
  rw [getContentById_applyGrounding,
    consumeChunks_content mid chunks _ ""
      (getContentById_append_placeholder history mid hfresh),
    consumeChunks_snd, concatTexts, concatFrom_filter_ne_empty]

/-- Witness for C1: the chunks Hel then lo! yield content exactly
Hello!. -/
theorem streamed_content_is_chunk_concat_witness :
    getContentById
      (submitPromptComplete [] "m1"
        [{ text := "Hel", groundingChunks := none },
         { text := "lo!", groundingChunks := none }]) "m1" =
      some "Hello!" := by
  rw [streamed_content_is_chunk_concat [] "m1" _ (by simp)]
  decide

/-- C2 counterexample: cancellation is observed after one chunk, but the
code's grounding step still runs on that consumed chunk and attaches its
grounding sources, so the placeholder message is mutated after cancellation
is observed; the claim's no-further-mutation part fails as stated. -/
theorem cancellation_no_mutation_counterexample :
    getMessageById
      (submitPromptComplete [] "m1"
        (deliveredOnCancel
          [{ text := "Hel",
             groundingChunks :=
               some [{ web := some { uri := some "https://example.com",
                                     title := some "Example" } }] },
           { text := "lo!", groundingChunks := none }] 1)) "m1" ≠
    getMessageById
      (consumeChunks "m1" ([] ++ [placeholderMessage "m1"], "")
        ([{ text := "Hel",
            groundingChunks :=
              some [{ web := some { uri := some "https://example.com",
                                    title := some "Example" } }] },
          { text := "lo!", groundingChunks := none }].take 1)).1 "m1" := by
  decide

/-- C2 (amended): if the cancellation signal is observed after N chunks
have been consumed, the delivered chunks are exactly the first N, the
placeholder's content equals the concatenation of those N chunk texts, and
no message content is mutated after cancellation is observed (the only
possible later mutation is the attachment of grounding sources carried by
the last consumed chunk); cancellation is not treated as an error. -/
theorem cancelled_content_is_partial_concat (history : List ChatMessage)
    (mid : String) (chunks : List Chunk) (n : ℕ)
    (hfresh : ∀ m ∈ history, m.id ≠ mid) :
    deliveredOnCancel chunks n = chunks.take n ∧
    getContentById
        (submitPromptComplete history mid (deliveredOnCancel chunks n))
        mid =
      some (concatTexts ((chunks.take n).map Chunk.text)) ∧
    (submitPromptComplete history mid (deliveredOnCancel chunks n)).map
        ChatMessage.content =
      ((consumeChunks mid (history ++ [placeholderMessage mid], "")
          (deliveredOnCancel chunks n)).1).map ChatMessage.content := by
  have htake := deliveredOnCancel_eq_take chunks n
  refine ⟨htake, ?_, ?_⟩
  · rw [htake]
    unfold submitPromptComplete
    rw [getContentById_applyGrounding,
      consumeChunks_content mid _ _ ""
        (getContentById_append_placeholder history mid hfresh),
      consumeChunks_snd]
    rfl
  · unfold submitPromptComplete
    exact contents_applyGrounding ..

/-- Witness for C2's amended theorem at a concrete cancelled run. -/
theorem cancelled_content_is_partial_concat_witness :
    getContentById
      (submitPromptComplete [] "m1"
        (deliveredOnCancel
          [{ text := "Hel", groundingChunks := none },
           { text := "lo!", groundingChunks := none }] 1)) "m1" =
      some "Hel" := by
  rw [(cancelled_content_is_partial_concat [] "m1"
    [{ text := "Hel", groundingChunks := none },
     { text := "lo!", groundingChunks := none }] 1 (by simp)).2.1]
  decide

/-- C8: a message-list patch targeting an absent id is a no-op (and, being
a total function, cannot throw), and every patch preserves the list's
length and order and leaves every message with a different id exactly as
it was. -/
theorem patch_noop_and_frame :
    (∀ (msgs : List ChatMessage) (mid : String) (p : MsgPatch),
      mid ∉ msgs.map ChatMessage.id → patchMessageList msgs mid p = msgs) ∧
    (∀ (msgs : List ChatMessage) (mid : String) (p : MsgPatch),
      (patchMessageList msgs mid p).length = msgs.length) ∧
    (∀ (msgs : List ChatMessage) (mid : String) (p : MsgPatch) (i : ℕ)
      (m : ChatMessage), msgs[i]? = some m → m.id ≠ mid →
      (patchMessageList msgs mid p)[i]? = some m) := by
  refine ⟨?_, ?_, ?_⟩
  · intro msgs mid p h
    exact updateById_of_not_mem msgs mid _ h
  · intro msgs mid p
    exact updateById_length ..
  · intro msgs mid p i m hm hne
    rw [patchMessageList, updateById_getElem?, hm]
    simp [hne]

/-- Witness for C8 at a concrete two-message list and an absent target
id. -/
theorem patch_noop_and_frame_witness :
    patchMessageList
        [placeholderMessage "a", placeholderMessage "b"] "zz"
        (MsgPatch.setContent "x") =
      [placeholderMessage "a", placeholderMessage "b"] ∧
    (patchMessageList [placeholderMessage "a", placeholderMessage "b"] "b"
        (MsgPatch.setContent "x")).length = 2 ∧
    (patchMessageList [placeholderMessage "a", placeholderMessage "b"] "b"
        (MsgPatch.setContent "x"))[0]? = some (placeholderMessage "a") :=
  ⟨patch_noop_and_frame.1 _ "zz" _ (by decide),
    patch_noop_and_frame.2.1 _ "b" _,
    patch_noop_and_frame.2.2 _ "b" _ 0 _ (by decide) (by decide)⟩

/-- C9: a non-abort failure replaces the placeholder's content with the
formatted error block and leaves every message with a different id exactly
as it was before the error patch; an abort leaves the partial concatenated
content intact. -/
theorem error_replaces_placeholder_content :
    (∀ (history : List ChatMessage) (mid : String) (delivered : List Chunk)
      (e : String), (∀ m ∈ history, m.id ≠ mid) →
      getContentById (submitPromptError history mid delivered e) mid =
        some (errorBlock e)) ∧
    (∀ (history : List ChatMessage) (mid : String) (delivered : List Chunk)
      (e : String) (i : ℕ) (m : ChatMessage),
      ((consumeChunks mid (history ++ [placeholderMessage mid], "")
          delivered).1)[i]? = some m →
      m.id ≠ mid →
      (submitPromptError history mid delivered e)[i]? = some m) ∧
    (∀ (history : List ChatMessage) (mid : String)
      (delivered : List Chunk), (∀ m ∈ history, m.id ≠ mid) →
      getContentById (submitPromptAborted history mid delivered) mid =
        some (concatTexts
          ((delivered.map Chunk.text).filter fun t => t != ""))) := by
  refine ⟨?_, ?_, ?_⟩
  · intro history mid delivered e hfresh
    unfold submitPromptError
    rw [getContentById_setContentById,
      consumeChunks_content mid delivered _ ""
        (getContentById_append_placeholder history mid hfresh)]
    rfl
  · intro history mid delivered e i m hm hne
    unfold submitPromptError setContentById
    rw [updateById_getElem?, hm]
    simp [hne]
  · intro history mid delivered hfresh
    unfold submitPromptAborted
    rw [consumeChunks_content mid delivered _ ""
        (getContentById_append_placeholder history mid hfresh),
      consumeChunks_snd, concatTexts, concatFrom_filter_ne_empty]

/-- Witness for C9 at a concrete failing run and a concrete aborted
run. -/
theorem error_replaces_placeholder_content_witness :
    getContentById
        (submitPromptError [] "m1"
          [{ text := "Hel", groundingChunks := none }] "boom") "m1" =
      some (errorBlock "boom") ∧
    (submitPromptError
        [{ id := "u1", role := MessageRole.user, content := "Hi",
           imageUrls := none, groundingSources := none }] "m1"
        [{ text := "Hel", groundingChunks := none }] "boom")[0]? =
      some { id := "u1", role := MessageRole.user, content := "Hi",
             imageUrls := none, groundingSources := none } ∧
    getContentById
        (submitPromptAborted [] "m1"
          [{ text := "Hel", groundingChunks := none }]) "m1" =
      some "Hel" := by
  refine ⟨error_replaces_placeholder_content.1 [] "m1" _ "boom" (by simp),
    ?_, ?_⟩
  · exact error_replaces_placeholder_content.2.1
      [{ id := "u1", role := MessageRole.user, content := "Hi",
         imageUrls := none, groundingSources := none }] "m1"
      [{ text := "Hel", groundingChunks := none }] "boom" 0
      { id := "u1", role := MessageRole.user, content := "Hi",
        imageUrls := none, groundingSources := none }
      (by decide) (by decide)
  · rw [error_replaces_placeholder_content.2.2 [] "m1"
      [{ text := "Hel", groundingChunks := none }] (by simp)]
    decide

/-- C10: if the cancellation signal has already fired before streamResponse
sends the request, streamResponse returns an empty generator without
raising an error and without contacting the external collaborator (first
component false means chat.sendMessageStream was never called), and the
placeholder message's content stays empty after such a generation. -/
theorem aborted_before_send_yields_nothing :
    (∀ (sendFails : Option String) (chunks : List Chunk)
      (aborted : ℕ → Bool),
      streamResponse true sendFails chunks aborted =
        Except.ok (false, [])) ∧
    (∀ (history : List ChatMessage) (mid : String),
      (∀ m ∈ history, m.id ≠ mid) →
      getContentById (submitPromptComplete history mid []) mid =
        some "") := by
  refine ⟨?_, ?_⟩
  · intro sendFails chunks aborted
    rfl
  · intro history mid hfresh
    simpa [submitPromptComplete, consumeChunks, applyGrounding] using
      getContentById_append_placeholder history mid hfresh

/-- Witness for C10 at a concrete pre-aborted generation. -/
theorem aborted_before_send_yields_nothing_witness :
    streamResponse true none [{ text := "Hel", groundingChunks := none }]
        (fun _ => false) =
      Except.ok (false, []) ∧
    getContentById (submitPromptComplete [] "m1" []) "m1" = some "" :=
  ⟨aborted_before_send_yields_nothing.1 none _ (fun _ => false),
    aborted_before_send_yields_nothing.2 [] "m1" (by simp)⟩

/-! Helper lemmas for the session store. -/

theorem ids_map_id_preserving (sessions : List ChatSession)
    (g : ChatSession → ChatSession) (hg : ∀ c, (g c).id = c.id) :
    (sessions.map g).map ChatSession.id = sessions.map ChatSession.id := by
  rw [List.map_map]
  exact List.map_congr_left fun c _ => hg c

theorem mem_ids_filter (sessions : List ChatSession) (a chatId : String)
    (ha : a ∈ sessions.map ChatSession.id) (hne : a ≠ chatId) :
    a ∈ (sessions.filter fun c => c.id != chatId).map ChatSession.id := by
  obtain ⟨c, hc, rfl⟩ := List.mem_map.mp ha
  exact List.mem_map.mpr
    ⟨c, List.mem_filter.mpr ⟨hc, by simpa [bne_iff_ne] using hne⟩, rfl⟩

theorem handleDeleteChat_active_cons (s : StoreState)
    (chatId newId : String) (first : ChatSession) (rest : List ChatSession)
    (hact : s.activeChatId = some chatId)
    (hfilter : s.sessions.filter (fun c => c.id != chatId) = first :: rest) :
    handleDeleteChat chatId newId s =
      { sessions := first :: rest
        folders := s.folders.map fun f =>
          { f with chatIds := f.chatIds.filter fun i => i != chatId }
        activeChatId := some first.id } := by
  simp only [handleDeleteChat]
  rw [if_pos hact, hfilter]

theorem handleDeleteChat_active_nil (s : StoreState)
    (chatId newId : String) (hact : s.activeChatId = some chatId)
    (hfilter : s.sessions.filter (fun c => c.id != chatId) = []) :
    handleDeleteChat chatId newId s =
      { sessions := [mkNewChat newId]
        folders := s.folders.map fun f =>
          { f with chatIds := f.chatIds.filter fun i => i != chatId }
        activeChatId := some newId } := by
  simp only [handleDeleteChat]
  rw [if_pos hact, hfilter]
  rfl

theorem handleDeleteChat_not_active (s : StoreState)
    (chatId newId : String) (hact : s.activeChatId ≠ some chatId) :
    handleDeleteChat chatId newId s =
      { sessions := s.sessions.filter fun c => c.id != chatId
        folders := s.folders.map fun f =>
          { f with chatIds := f.chatIds.filter fun i => i != chatId }
        activeChatId := s.activeChatId } := by
  simp only [handleDeleteChat]
  rw [if_neg hact]

/-- C3: the active-selection invariant is preserved by every store
operation; deleting the active session when other sessions remain makes
the first remaining session active; deleting the last remaining session
results in exactly one newly created default session that is active. -/
theorem store_active_selection_invariant :
    (∀ (s : StoreState) (op : StoreOp), StoreInv s → ValidOp s op →
      StoreInv (applyOp op s)) ∧
    (∀ (s : StoreState) (chatId newId : String) (first : ChatSession)
      (rest : List ChatSession),
      s.activeChatId = some chatId →
      s.sessions.filter (fun c => c.id != chatId) = first :: rest →
      (handleDeleteChat chatId newId s).sessions = first :: rest ∧
      (handleDeleteChat chatId newId s).activeChatId = some first.id ∧
      first.id ∈ (first :: rest).map ChatSession.id) ∧
    (∀ (s : StoreState) (chatId newId : String),
      s.activeChatId = some chatId →
      s.sessions.filter (fun c => c.id != chatId) = [] →
      (handleDeleteChat chatId newId s).sessions = [mkNewChat newId] ∧
      (handleDeleteChat chatId newId s).activeChatId = some newId) := by
  refine ⟨?_, ?_, ?_⟩
  · intro s op hinv hvalid
    obtain ⟨hmem, hsome⟩ := hinv
    cases op with
    | newChat newId =>
      refine ⟨?_, ?_⟩
      · intro a ha
        simp only [applyOp, handleNewChat] at ha ⊢
        obtain rfl : newId = a := by simpa using ha
        simp [mkNewChat]
      · intro _
        simp [applyOp, handleNewChat]
    | deleteChat chatId newId =>
      by_cases hact : s.activeChatId = some chatId
      · cases hfilter : s.sessions.filter (fun c => c.id != chatId) with
        | nil =>
          rw [show applyOp (StoreOp.deleteChat chatId newId) s =
            handleDeleteChat chatId newId s from rfl,
            handleDeleteChat_active_nil s chatId newId hact hfilter]
          refine ⟨?_, ?_⟩
          · intro a ha
            obtain rfl : newId = a := by simpa using ha
            simp [mkNewChat]
          · intro _
            simp
        | cons first rest =>
          rw [show applyOp (StoreOp.deleteChat chatId newId) s =
            handleDeleteChat chatId newId s from rfl,
            handleDeleteChat_active_cons s chatId newId first rest hact
              hfilter]
          refine ⟨?_, ?_⟩
          · intro a ha
            obtain rfl : first.id = a := by simpa using ha
            simp
          · intro _
            simp
      · rw [show applyOp (StoreOp.deleteChat chatId newId) s =
          handleDeleteChat chatId newId s from rfl,
          handleDeleteChat_not_active s chatId newId hact]
        refine ⟨?_, ?_⟩
        · intro a ha
          have ha' : s.activeChatId = some a := ha
          have hane : a ≠ chatId := by
            intro he
            exact hact (by rw [ha', he])
          exact mem_ids_filter s.sessions a chatId (hmem a ha') hane
        · intro hne hnone
          have hs : s.sessions ≠ [] := by
            intro h0
            apply hne
            rw [h0]
            rfl
          exact hsome hs hnone
    | selectChat chatId =>
      refine ⟨?_, ?_⟩
      · intro a ha
        obtain rfl : chatId = a := by simpa [applyOp, handleSelectChat] using ha
        have hv : chatId ∈ s.sessions.map ChatSession.id := hvalid
        simpa [applyOp, handleSelectChat] using hv
      · intro _
        simp [applyOp, handleSelectChat]
    | renameChat chatId newTitle =>
      refine ⟨?_, ?_⟩
      · intro a ha
        have ha' : s.activeChatId = some a := ha
        have hids : ((s.sessions.map fun c =>
            if c.id == chatId then { c with title := newTitle } else c).map
              ChatSession.id) = s.sessions.map ChatSession.id := by
          refine ids_map_id_preserving _ _ fun c => ?_
          by_cases hc : (c.id == chatId) = true <;> simp [hc]
        have hm := hmem a ha'
        rw [← hids] at hm
        exact hm
      · intro hne hnone
        have hs : s.sessions ≠ [] := by
          intro h0
          apply hne
          simp [applyOp, handleRenameChat, h0]
        exact hsome hs hnone
    | togglePin chatId =>
      refine ⟨?_, ?_⟩
      · intro a ha
        have ha' : s.activeChatId = some a := ha
        have hids : ((s.sessions.map fun c =>
            if c.id == chatId then { c with pinned := !c.pinned } else c).map
              ChatSession.id) = s.sessions.map ChatSession.id := by
          refine ids_map_id_preserving _ _ fun c => ?_
          by_cases hc : (c.id == chatId) = true <;> simp [hc]
        have hm := hmem a ha'
        rw [← hids] at hm
        exact hm
      · intro hne hnone
        have hs : s.sessions ≠ [] := by
          intro h0
          apply hne
          simp [applyOp, handleTogglePinChat, h0]
        exact hsome hs hnone
  · intro s chatId newId first rest hact hfilter
    rw [handleDeleteChat_active_cons s chatId newId first rest hact hfilter]
    exact ⟨rfl, rfl, by simp⟩
  · intro s chatId newId hact hfilter
    rw [handleDeleteChat_active_nil s chatId newId hact hfilter]
    exact ⟨rfl, rfl⟩

/-- Witness for C3: a two-session store where the active session is
deleted, and a one-session store where the last session is deleted. -/
theorem store_active_selection_invariant_witness :
    StoreInv
      (applyOp (StoreOp.deleteChat "1" "2")
        { sessions := [mkNewChat "1"], folders := [],
          activeChatId := some "1" }) ∧
    (handleDeleteChat "1" "9"
        { sessions := [mkNewChat "1", mkNewChat "2"], folders := [],
          activeChatId := some "1" }).activeChatId = some (mkNewChat "2").id ∧
    (handleDeleteChat "1" "2"
        { sessions := [mkNewChat "1"], folders := [],
          activeChatId := some "1" }).sessions = [mkNewChat "2"] := by
  have hinv : StoreInv
      { sessions := [mkNewChat "1"], folders := [],
        activeChatId := some "1" } := by
    constructor
    · intro a ha
      obtain rfl : "1" = a := by simpa using ha
      simp [mkNewChat]
    · intro _
      simp
  refine ⟨store_active_selection_invariant.1 _ _ hinv trivial, ?_, ?_⟩
  · exact (store_active_selection_invariant.2.1
      { sessions := [mkNewChat "1", mkNewChat "2"], folders := [],
        activeChatId := some "1" } "1" "9" (mkNewChat "2") []
      rfl (by rfl)).2.1
  · exact (store_active_selection_invariant.2.2
      { sessions := [mkNewChat "1"], folders := [],
        activeChatId := some "1" } "1" "2" rfl (by rfl)).1

/-! Helper lemmas for the folder invariant. -/

theorem handleMoveChatToFolder_none (chatId : String)
    (folders : List Folder) :
    handleMoveChatToFolder chatId none folders =
      folders.map fun f =>
        { f with chatIds := f.chatIds.filter fun i => i != chatId } := rfl

theorem handleMoveChatToFolder_some (chatId fid : String)
    (folders : List Folder) :
    handleMoveChatToFolder chatId (some fid) folders =
      (folders.map fun f =>
        { f with chatIds := f.chatIds.filter fun i => i != chatId }).map
          fun f =>
            if f.id == fid then { f with chatIds := chatId :: f.chatIds }
            else f := rfl

theorem move_ids (chatId : String) (folderId : Option String)
    (folders : List Folder) :
    (handleMoveChatToFolder chatId folderId folders).map Folder.id =
      folders.map Folder.id := by
  cases folderId with
  | none =>
    rw [handleMoveChatToFolder_none, List.map_map]
    exact List.map_congr_left fun f _ => rfl
  | some fid =>
    rw [handleMoveChatToFolder_some, List.map_map, List.map_map]
    refine List.map_congr_left fun f _ => ?_
    by_cases hf : (f.id == fid) = true <;> simp [Function.comp, hf]

theorem foldersContaining_move_other (chatId : String)
    (folderId : Option String) (folders : List Folder) (a : String)
    (hne : a ≠ chatId) :
    foldersContaining a (handleMoveChatToFolder chatId folderId folders) =
      foldersContaining a folders := by
  unfold foldersContaining
  cases folderId with
  | none =>
    rw [handleMoveChatToFolder_none, List.countP_map]
    refine List.countP_congr fun f _ => ?_
    simp [Function.comp, List.mem_filter, bne_iff_ne, hne]
  | some fid =>
    rw [handleMoveChatToFolder_some, List.map_map, List.countP_map]
    refine List.countP_congr fun f _ => ?_
    by_cases hf : (f.id == fid) = true
    · simp [Function.comp, hf, List.mem_cons, List.mem_filter,
        bne_iff_ne, hne]
    · simp [Function.comp, hf, List.mem_filter, bne_iff_ne, hne]

theorem foldersContaining_move_self_none (chatId : String)
    (folders : List Folder) :
    foldersContaining chatId (handleMoveChatToFolder chatId none folders) =
      0 := by
  unfold foldersContaining
  rw [handleMoveChatToFolder_none, List.countP_map, List.countP_eq_zero]
  intro f _
  simp [Function.comp, List.mem_filter]

theorem foldersContaining_move_self_some (chatId fid : String)
    (folders : List Folder) (hnd : (folders.map Folder.id).Nodup) :
    foldersContaining chatId
        (handleMoveChatToFolder chatId (some fid) folders) ≤ 1 := by
  unfold foldersContaining
  rw [handleMoveChatToFolder_some, List.map_map, List.countP_map]
  have hcongr : ∀ f ∈ folders,
      (((fun f : Folder => decide (chatId ∈ f.chatIds)) ∘
        ((fun f : Folder =>
          if f.id == fid then { f with chatIds := chatId :: f.chatIds }
          else f) ∘
         (fun f : Folder =>
          { f with chatIds := f.chatIds.filter fun i => i != chatId }))) f)
        ↔ ((fun f : Folder => f.id == fid) f : Bool) := by
    intro f _
    by_cases hf : (f.id == fid) = true
    · simp [Function.comp, hf, List.mem_cons, List.mem_filter]
    · simp [Function.comp, hf, List.mem_filter]
  rw [List.countP_congr hcongr]
  have hcount : folders.countP (fun f => f.id == fid) =
      (folders.map Folder.id).count fid := by
    rw [List.count_eq_countP, List.countP_map]
    rfl
  rw [hcount]
  exact List.nodup_iff_count_le_one.mp hnd fid

theorem folderInv_move (chatId : String) (folderId : Option String)
    (folders : List Folder) (hnd : (folders.map Folder.id).Nodup)
    (hinv : FolderInv folders) :
    FolderInv (handleMoveChatToFolder chatId folderId folders) := by
  intro a
  by_cases hid : a = chatId
  · subst hid
    cases folderId with
    | none =>
      rw [foldersContaining_move_self_none]
      exact Nat.zero_le 1
    | some fid => exact foldersContaining_move_self_some a fid folders hnd
  · rw [foldersContaining_move_other chatId folderId folders a hid]
    exact hinv a

/-- C4: after any sequence of move-to-folder operations, starting from
folders with distinct ids in which every session id appears in at most one
member list, every session id still appears in at most one folder's member
list. -/
theorem session_in_at_most_one_folder
    (moves : List (String × Option String)) :
    ∀ folders : List Folder, (folders.map Folder.id).Nodup →
      FolderInv folders → FolderInv (applyMoves moves folders) := by
  induction moves with
  | nil => intro folders _ hinv; exact hinv
  | cons mv moves ih =>
    intro folders hnd hinv
    rw [show applyMoves (mv :: moves) folders =
      applyMoves moves (handleMoveChatToFolder mv.1 mv.2 folders) from rfl]
    refine ih _ ?_ (folderInv_move mv.1 mv.2 folders hnd hinv)
    rw [move_ids]
    exact hnd

/-- Witness for C4: moving one chat into folder f1 and then into folder f2
keeps it in at most one member list. -/
theorem session_in_at_most_one_folder_witness :
    FolderInv
      (applyMoves [("c1", some "f1"), ("c1", some "f2")]
        [{ id := "f1", name := "A", chatIds := [], isOpen := true },
         { id := "f2", name := "B", chatIds := [], isOpen := true }]) :=
  session_in_at_most_one_folder _ _ (by decide)
    (fun a => by simp [foldersContaining])

/-- C5: the arrival sequence user hel, user lo, turn-complete yields a
transcript with exactly one finalized entry with text hello; a consecutive
non-final update of the same role is always merged into the last entry
rather than appended; a turn-complete signal finalizes all currently
non-final entries at once. -/
theorem transcript_coalescing :
    (finalizeAll
        (addOrUpdateTranscription "t2" MessageRole.user "lo" false
          (addOrUpdateTranscription "t1" MessageRole.user "hel" false
            [])) =
      [{ id := "t1", role := MessageRole.user, text := "hello",
         isFinal := true }]) ∧
    (∀ (prev : List TranscriptionMessage) (last : TranscriptionMessage)
      (freshId text : String) (fin : Bool) (role : MessageRole),
      role ≠ MessageRole.tool → prev.getLast? = some last →
      last.role = role → last.isFinal = false →
      addOrUpdateTranscription freshId role text fin prev =
        prev.dropLast ++
          [{ last with text := last.text ++ text, isFinal := fin }]) ∧
    (∀ ts : List TranscriptionMessage,
      finalizeAll ts = ts.map fun t => { t with isFinal := true }) := by
  refine ⟨by decide, ?_, ?_⟩
  · intro prev last freshId text fin role hrole hlast hrl hfin
    unfold addOrUpdateTranscription
    rw [if_neg hrole, hlast]
    have hcond : last.role = role ∧ last.isFinal = false := ⟨hrl, hfin⟩
    exact if_pos hcond
  · intro ts
    unfold finalizeAll
    refine List.map_congr_left fun t _ => ?_
    by_cases hf : t.isFinal = false
    · rw [if_pos hf]
    · rw [if_neg hf]
      have ht : t.isFinal = true := by
        cases hb : t.isFinal
        · exact absurd hb hf
        · rfl
      cases t
      simp_all

/-- Witness for C5's merge conjunct at a concrete transcript. -/
theorem transcript_coalescing_witness :
    addOrUpdateTranscription "t9" MessageRole.user "lo" false
        [{ id := "t1", role := MessageRole.user, text := "hel",
           isFinal := false }] =
      [{ id := "t1", role := MessageRole.user, text := "hello",
         isFinal := false }] := by
  rw [transcript_coalescing.2.1
    [{ id := "t1", role := MessageRole.user, text := "hel",
       isFinal := false }]
    { id := "t1", role := MessageRole.user, text := "hel",
      isFinal := false }
    "t9" "lo" false MessageRole.user (by decide) (by decide) rfl rfl]
  decide

/-- C6: each incoming playback chunk is scheduled to start at the greater
of the current audio-clock time and the previous chunk's scheduled end
time; in particular, when a second chunk arrives no later than the
scheduled end of a 1.0s chunk, its start is exactly 1.0s after the first
chunk's start. -/
theorem playback_schedules_back_to_back :
    (∀ (st : PlaybackState) (now dur : ℚ),
      (scheduleChunk st now dur).2 = max st.nextStartTime now) ∧
    (∀ (st : PlaybackState) (now1 now2 : ℚ),
      now2 ≤ (scheduleChunk st now1 1).2 + 1 →
      (scheduleChunk (scheduleChunk st now1 1).1 now2 (1/2)).2 =
        (scheduleChunk st now1 1).2 + 1) := by
  refine ⟨fun st now dur => rfl, ?_⟩
  intro st now1 now2 h
  simp only [scheduleChunk] at h ⊢
  exact max_eq_left h

/-- Witness for C6: two chunks of durations 1.0s and 0.5s, the second
arriving at clock time 0.5s, start exactly 1.0s apart. -/
theorem playback_schedules_back_to_back_witness :
    (scheduleChunk
        (scheduleChunk { nextStartTime := 0, sources := [] } 0 1).1 (1/2)
        (1/2)).2 = 1 :=
  (playback_schedules_back_to_back.2
      { nextStartTime := 0, sources := [] } 0 (1/2)
      (by norm_num [scheduleChunk])).trans
    (by norm_num [scheduleChunk])

/-- C7: the interrupted signal stops and clears every scheduled source and
resets the next-start-time cursor to zero, so the next chunk to arrive is
scheduled at the current clock time itself (offset zero from the audio
clock) instead of the previously scheduled offset. -/
theorem interrupted_resets_playback :
    (∀ st : PlaybackState,
      (interruptPlayback st).sources = [] ∧
        (interruptPlayback st).nextStartTime = 0) ∧
    (∀ (st : PlaybackState) (now dur : ℚ), 0 ≤ now →
      (scheduleChunk (interruptPlayback st) now dur).2 = now) := by
  refine ⟨fun st => ⟨rfl, rfl⟩, ?_⟩
  intro st now dur h
  simp only [scheduleChunk, interruptPlayback]
  exact max_eq_right h

/-- Witness for C7: after an interruption of a busy schedule, a chunk
arriving at clock time 1.5s starts at 1.5s. -/
theorem interrupted_resets_playback_witness :
    (scheduleChunk
        (interruptPlayback { nextStartTime := 5, sources := [(2, 3)] })
        (3/2) 1).2 = 3/2 :=
  interrupted_resets_playback.2
    { nextStartTime := 5, sources := [(2, 3)] } (3/2) 1 (by norm_num)

end ConnectAi
